import Mathlib

/-! # FBOSS agent: platform product info, port statistics and FDB programming

A shallow embedding of

* `fboss/agent/platforms/common/PlatformProductInfo.cpp` (`initMode`, `parse`),
* `fboss/agent/hw/test/HwTestStatUtils.cpp` (`getPortOutPkts`),
* `fboss/agent/hw/sai/switch/tests/FdbManagerTest.cpp` (`makeMacEntry`,
  `addMacEntry`, `checkFdbEntry`),

followed by the properties established about them.

Conventions: a C++ member function that mutates `*this` and may throw is a
function from the object to a `Run`, which holds the object as the call left
it together with the exception that escaped, if any.  `std::string` is
`String`.  Machine integers are `Int`/`Nat` reduced explicitly.
-/

set_option autoImplicit false

namespace Fboss

/-! ## Exceptions and runs -/

/-- The C++ exceptions that the embedded functions let escape. -/
inductive Exn where
  | runtime_error (what : String)
  | type_error
  | out_of_range
  | invalid_argument
  | conversion_error
  deriving DecidableEq, Repr

/-- Outcome of running a mutating member function: the object afterwards and
the exception thrown, `none` when the call returned normally. -/
structure Run (σ : Type) where
  state : σ
  thrown : Option Exn
  deriving DecidableEq, Repr

/-- Normal return. -/
def Run.ret {σ : Type} (s : σ) : Run σ := ⟨s, none⟩

/-- A `throw` statement: the object stays as it is at that point. -/
def Run.throw {σ : Type} (s : σ) (e : Exn) : Run σ := ⟨s, some e⟩

/-! ## `std::string::find` -/

/-- Search `pat` in `s`, the first candidate position being `pos`:
the position of the first occurrence, `none` for `npos`. -/
def findFrom (pat : List Char) : List Char → Nat → Option Nat
  | [], pos => if pat.isEmpty then some pos else none
  | c :: cs, pos =>
    if pat.isPrefixOf (c :: cs) then some pos else findFrom pat cs (pos + 1)

/-- The call `s.find(pat)`. -/
def find (s pat : String) : Option Nat := findFrom pat.data s.data 0

/-! ## Platform modes and product info -/

/-- The enumerators of `PlatformMode` that `initMode` assigns. -/
inductive PlatformMode where
  | WEDGE
  | WEDGE100
  | GALAXY_LC
  | GALAXY_FC
  | FAKE_WEDGE
  | MINIPACK
  | YAMP
  | FAKE_WEDGE40
  | WEDGE400C
  | WEDGE400
  deriving DecidableEq, Repr

/-- The struct `ProductInfo`, with the fields that `parse` writes. -/
structure ProductInfo where
  oem : String
  product : String
  serial : String
  macRangeStart : String
  macRangeSize : Int
  mfgDate : String
  systemPartNumber : String
  assembledAt : String
  pcbManufacturer : String
  assetTag : String
  partNumber : String
  odmPcbaPartNumber : String
  odmPcbaSerial : String
  fbPcbaPartNumber : String
  fbPcbPartNumber : String
  fabricLocation : String
  version : Int
  subVersion : Int
  productionState : Int
  productVersion : Int
  bmcMac : String
  mgmtMac : String
  deriving DecidableEq, Repr

/-- The data members of `PlatformProductInfo`. -/
structure PlatformProductInfo where
  path_ : String
  productInfo_ : ProductInfo
  mode_ : PlatformMode
  deriving DecidableEq, Repr

/-- The member `getProductName`. -/
def PlatformProductInfo.getProductName (self : PlatformProductInfo) : String :=
  self.productInfo_.product

/-- The member `getMode`. -/
def PlatformProductInfo.getMode (self : PlatformProductInfo) : PlatformMode :=
  self.mode_

/-- The member `initMode`; `FLAGS_mode` is the value of the command line flag
`mode`. -/
def PlatformProductInfo.initMode (FLAGS_mode : String) (self : PlatformProductInfo) :
    Run PlatformProductInfo :=
  if FLAGS_mode.isEmpty then
    let modelName := self.getProductName
    if find modelName "Wedge100" == some 0 || find modelName "WEDGE100" == some 0 then
      Run.ret { self with mode_ := PlatformMode.WEDGE100 }
    else if find modelName "Wedge400c" == some 0 || find modelName "WEDGE400C" == some 0 then
      Run.ret { self with mode_ := PlatformMode.WEDGE400C }
    else if find modelName "Wedge400" == some 0 || find modelName "WEDGE400" == some 0 then
      Run.ret { self with mode_ := PlatformMode.WEDGE400 }
    else if find modelName "Wedge" == some 0 || find modelName "WEDGE" == some 0 then
      Run.ret { self with mode_ := PlatformMode.WEDGE }
    else if find modelName "SCM-LC" == some 0 || find modelName "LC" == some 0 then
      Run.ret { self with mode_ := PlatformMode.GALAXY_LC }
    else if find modelName "SCM-FC" == some 0 || find modelName "SCM-FAB" == some 0 ||
        find modelName "FAB" == some 0 then
      Run.ret { self with mode_ := PlatformMode.GALAXY_FC }
    else if find modelName "MINIPACK" == some 0 then
      Run.ret { self with mode_ := PlatformMode.MINIPACK }
    else if find modelName "DCS-7368" == some 0 || find modelName "YAMP" == some 0 then
      Run.ret { self with mode_ := PlatformMode.YAMP }
    else if find modelName "fake_wedge40" == some 0 then
      Run.ret { self with mode_ := PlatformMode.FAKE_WEDGE40 }
    else if find modelName "fake_wedge" == some 0 then
      Run.ret { self with mode_ := PlatformMode.FAKE_WEDGE }
    else
      Run.throw self (Exn.runtime_error ("invalid model name " ++ modelName))
  else
    if FLAGS_mode == "wedge" then
      Run.ret { self with mode_ := PlatformMode.WEDGE }
    else if FLAGS_mode == "wedge100" then
      Run.ret { self with mode_ := PlatformMode.WEDGE100 }
    else if FLAGS_mode == "galaxy_lc" then
      Run.ret { self with mode_ := PlatformMode.GALAXY_LC }
    else if FLAGS_mode == "galaxy_fc" then
      Run.ret { self with mode_ := PlatformMode.GALAXY_FC }
    else if FLAGS_mode == "minipack" then
      Run.ret { self with mode_ := PlatformMode.MINIPACK }
    else if FLAGS_mode == "yamp" then
      Run.ret { self with mode_ := PlatformMode.YAMP }
    else if FLAGS_mode == "fake_wedge40" then
      Run.ret { self with mode_ := PlatformMode.FAKE_WEDGE40 }
    else if FLAGS_mode == "wedge400" then
      Run.ret { self with mode_ := PlatformMode.WEDGE400 }
    else
      Run.throw self (Exn.runtime_error ("invalid mode " ++ FLAGS_mode))

/-! ### The description of `initMode` that the properties compare it with -/

/-- The model-name table in the order in which it is consulted: each row lists
the spellings that select the mode on its right. -/
def modelTable : List (List String × PlatformMode) :=
  [ (["Wedge100", "WEDGE100"], PlatformMode.WEDGE100),
    (["Wedge400c", "WEDGE400C"], PlatformMode.WEDGE400C),
    (["Wedge400", "WEDGE400"], PlatformMode.WEDGE400),
    (["Wedge", "WEDGE"], PlatformMode.WEDGE),
    (["SCM-LC", "LC"], PlatformMode.GALAXY_LC),
    (["SCM-FC", "SCM-FAB", "FAB"], PlatformMode.GALAXY_FC),
    (["MINIPACK"], PlatformMode.MINIPACK),
    (["DCS-7368", "YAMP"], PlatformMode.YAMP),
    (["fake_wedge40"], PlatformMode.FAKE_WEDGE40),
    (["fake_wedge"], PlatformMode.FAKE_WEDGE) ]

/-- Whether the text `name` begins with the text `p`. -/
def startsWith (name p : String) : Bool := p.data.isPrefixOf name.data

/-- The mode of the first row of a table one of whose spellings begins `name`. -/
def firstMatch (name : String) : List (List String × PlatformMode) → Option PlatformMode
  | [] => none
  | (ps, m) :: rows => if ps.any (startsWith name) then some m else firstMatch name rows

/-- All the spellings of the model-name table. -/
def recognisedSpellings : List String := (modelTable.map Prod.fst).flatten

/-- The strings that the mode flag accepts, with the mode each selects. -/
def acceptedModes : List (String × PlatformMode) :=
  [ ("wedge", PlatformMode.WEDGE),
    ("wedge100", PlatformMode.WEDGE100),
    ("galaxy_lc", PlatformMode.GALAXY_LC),
    ("galaxy_fc", PlatformMode.GALAXY_FC),
    ("minipack", PlatformMode.MINIPACK),
    ("yamp", PlatformMode.YAMP),
    ("fake_wedge40", PlatformMode.FAKE_WEDGE40),
    ("wedge400", PlatformMode.WEDGE400) ]

/-! ## Machine integers -/

/-- Value of a signed 64-bit computation whose exact result is `x`
(two's complement). -/
def wrapInt64 (x : Int) : Int := (x + 2 ^ 63) % 2 ^ 64 - 2 ^ 63

/-- Conversion of the integer `x` to `uint64_t`. -/
def toUInt64 (x : Int) : Nat := (x % 2 ^ 64).toNat

/-! ## `folly::MacAddress` -/

/-- A `folly::MacAddress`: six bytes, held as the number below `2 ^ 48` that
they spell in network order. -/
structure MacAddress where
  value : Nat
  isLt : value < 2 ^ 48
  deriving DecidableEq, Repr

/-- The member `u64HBO`: the address as a 64-bit integer in host byte order. -/
def MacAddress.u64HBO (self : MacAddress) : Nat := self.value

/-- The static member `fromHBO`: the address spelled by the six low bytes of a
64-bit integer; its two high bytes are ignored. -/
def MacAddress.fromHBO (value : Nat) : MacAddress :=
  ⟨value % 2 ^ 48, Nat.mod_lt _ (by norm_num)⟩

/-! ## `folly::dynamic` -/

/-- A value of type `double` inside a `dynamic`, given by what the two
conversions applied to it yield: its text, and its value as `int64_t`, `none`
when that conversion throws. -/
structure DoubleRepr where
  asString : String
  asInt : Option Int
  deriving DecidableEq, Repr

/-- The values a `folly::dynamic` returned by `parseJson` can hold. An object
is the list of its members; a key stands for its first member of that name. -/
inductive dynamic where
  | null
  | boolean (b : Bool)
  | int64 (i : Int)
  | double (d : DoubleRepr)
  | string (s : String)
  | array (elems : List dynamic)
  | object (members : List (String × dynamic))

/-- The conversions of the folly library that `parse` relies on. Their code is
not part of this repository, so the embedding takes them as given. -/
structure Folly where
  /-- The conversion `folly::to<std::string>(bool)`. -/
  boolToString : Bool → String
  /-- The conversion `folly::to<std::string>(int64_t)`. -/
  intToString : Int → String
  /-- The conversion `folly::to<int64_t>(std::string)`. -/
  stringToInt : String → Except Exn Int
  /-- The constructor `MacAddress(StringPiece)`. -/
  macParse : String → Except Exn MacAddress
  /-- The member `MacAddress::toString`. -/
  macToString : MacAddress → String

/-- The member `at(StringPiece)`: the member of that name of an object. -/
def dynamic.at_ (self : dynamic) (key : String) : Except Exn dynamic :=
  match self with
  | .object members =>
    match members.lookup key with
    | some v => .ok v
    | none => .error Exn.out_of_range
  | _ => .error Exn.type_error

/-- The non-const `operator[](StringPiece)`: the member of that name of an
object, a null value (which the operator inserts) when there is none. -/
def dynamic.index (self : dynamic) (key : String) : Except Exn dynamic :=
  match self with
  | .object members =>
    match members.lookup key with
    | some v => .ok v
    | none => .ok dynamic.null
  | _ => .error Exn.type_error

/-- The member `asString`. -/
def dynamic.asString (lib : Folly) (self : dynamic) : Except Exn String :=
  match self with
  | .int64 i => .ok (lib.intToString i)
  | .double d => .ok d.asString
  | .boolean b => .ok (lib.boolToString b)
  | .string s => .ok s
  | _ => .error Exn.type_error

/-- The member `asInt`. -/
def dynamic.asInt (lib : Folly) (self : dynamic) : Except Exn Int :=
  match self with
  | .int64 i => .ok i
  | .double d =>
    match d.asInt with
    | some i => .ok i
    | none => .error Exn.conversion_error
  | .boolean b => .ok (if b then 1 else 0)
  | .string s => lib.stringToInt s
  | _ => .error Exn.type_error

/-! ## The folly conversions written out

The instance `folly` spells out the conversions as the library documents them;
the examples are evaluated with it. -/

/-- Value of a hexadecimal digit. -/
def hexValue (c : Char) : Option Nat :=
  if '0' ≤ c ∧ c ≤ '9' then some (c.toNat - '0'.toNat)
  else if 'a' ≤ c ∧ c ≤ 'f' then some (c.toNat - 'a'.toNat + 10)
  else if 'A' ≤ c ∧ c ≤ 'F' then some (c.toNat - 'A'.toNat + 10)
  else none

/-- The characters that separate the bytes of a MAC address. -/
def isSeparatorChar (c : Char) : Bool := c == ':' || c == '-'

/-- The loop of `MacAddress::parse`: reads `count` bytes, `first` telling
whether the byte to read is the first one, and returns them when the text ends
with the last one. -/
def parseMacBytes : Nat → Bool → List Char → Option (List Nat)
  | 0, _, [] => some []
  | 0, _, _ :: _ => none
  | _ + 1, _, [] => none
  | count + 1, first, c :: cs =>
    let p := if !first && isSeparatorChar c then cs else c :: cs
    match p with
    | [] => none
    | u :: rest =>
      match hexValue u with
      | none => none
      | some upper =>
        match rest with
        | [] => (parseMacBytes count false []).map (upper :: ·)
        | l :: rest' =>
          match hexValue l with
          | some lower => (parseMacBytes count false rest').map ((upper * 16 + lower) :: ·)
          | none =>
            if isSeparatorChar l then (parseMacBytes count false rest').map (upper :: ·)
            else none

/-- The constructor `MacAddress(StringPiece)`. -/
def MacAddress.parse (text : String) : Except Exn MacAddress :=
  match parseMacBytes 6 true text.data with
  | some bytes => .ok (MacAddress.fromHBO (bytes.foldl (fun acc b => acc * 256 + b) 0))
  | none => .error Exn.invalid_argument

/-- A hexadecimal digit in lower case. -/
def hexChar (n : Nat) : Char :=
  if n < 10 then Char.ofNat ('0'.toNat + n) else Char.ofNat ('a'.toNat + (n - 10))

/-- Two hexadecimal digits of the byte `index` (0 the first) of an address. -/
def hexByte (self : MacAddress) (index : Nat) : List Char :=
  let b := self.value / 256 ^ (5 - index) % 256
  [hexChar (b / 16), hexChar (b % 16)]

/-- The member `toString`: `xx:xx:xx:xx:xx:xx` in lower case. -/
def MacAddress.toString (self : MacAddress) : String :=
  ⟨hexByte self 0 ++ ':' :: hexByte self 1 ++ ':' :: hexByte self 2 ++ ':' :: hexByte self 3 ++
    ':' :: hexByte self 4 ++ ':' :: hexByte self 5⟩

/-- The C function `isspace` in the default locale. -/
def isSpace (c : Char) : Bool :=
  c == ' ' || c == '\t' || c == '\n' || c == '\x0b' || c == '\x0c' || c == '\r'

/-- Value of a run of decimal digits, `none` when a character is no digit. -/
def digitsValue : List Char → Nat → Option Nat
  | [], acc => some acc
  | c :: cs, acc =>
    if '0' ≤ c ∧ c ≤ '9' then digitsValue cs (acc * 10 + (c.toNat - '0'.toNat)) else none

/-- The conversion `folly::to<int64_t>` of a text: blanks, an optional sign,
decimal digits, blanks; the value has to fit 64 bits. -/
def stringToInt64 (text : String) : Except Exn Int :=
  let body := ((text.data.dropWhile isSpace).reverse.dropWhile isSpace).reverse
  let (negative, digits) :=
    match body with
    | '-' :: ds => (true, ds)
    | '+' :: ds => (false, ds)
    | ds => (false, ds)
  match digits with
  | [] => .error Exn.conversion_error
  | _ :: _ =>
    match digitsValue digits 0 with
    | none => .error Exn.conversion_error
    | some n =>
      let v : Int := if negative then -(n : Int) else (n : Int)
      if -(2 ^ 63) ≤ v ∧ v < 2 ^ 63 then .ok v else .error Exn.conversion_error

/-- The folly conversions written out. -/
def folly : Folly where
  boolToString := fun b => if b then "1" else "0"
  intToString := fun i => toString i
  stringToInt := stringToInt64
  macParse := MacAddress.parse
  macToString := MacAddress.toString

/-! ## `PlatformProductInfo::parse` -/

def kInfo : String := "Information"
def kSysMfgDate : String := "System Manufacturing Date"
def kSysMfg : String := "System Manufacturer"
def kSysAmbPartNum : String := "System Assembly Part Number"
def kAmbAt : String := "Assembled At"
def kPcbMfg : String := "PCB Manufacturer"
def kProdAssetTag : String := "Product Asset Tag"
def kProdName : String := "Product Name"
def kProdVersion : String := "Product Version"
def kProductionState : String := "Product Production State"
def kProdPartNum : String := "Product Part Number"
def kSerialNum : String := "Product Serial Number"
def kSubVersion : String := "Product Sub-Version"
def kOdmPcbaPartNum : String := "ODM PCBA Part Number"
def kOdmPcbaSerialNum : String := "ODM PCBA Serial Number"
def kFbPcbaPartNum : String := "Facebook PCBA Part Number"
def kFbPcbPartNum : String := "Facebook PCB Part Number"
def kExtMacSize : String := "Extended MAC Address Size"
def kExtMacBase : String := "Extended MAC Base"
def kLocalMac : String := "Local MAC"
def kVersion : String := "Version"
def kFabricLocation : String := "Location on Fabric"

/-- Widths in bits of the integer fields of `ProductInfo`. The struct is
declared outside the sources at hand, so the widths are taken as given. -/
structure IntFieldBits where
  version : Nat
  subVersion : Nat
  productionState : Nat
  productVersion : Nat
  macRangeSize : Nat
  deriving DecidableEq, Repr

/-- Conversion of the integer `x` to a signed integer of `bits` bits. -/
def narrow (bits : Nat) (x : Int) : Int :=
  (x + 2 ^ (bits - 1)) % 2 ^ bits - 2 ^ (bits - 1)

/-- Sequencing of statements: the next one runs unless an exception escaped. -/
def Run.andThen {σ : Type} (r : Run σ) (next : σ → Run σ) : Run σ :=
  match r.thrown with
  | none => next r.state
  | some _ => r

/-- An assignment `field = value;` whose right-hand side may throw. -/
def assign {α : Type} (value : Except Exn α)
    (store : PlatformProductInfo → α → PlatformProductInfo) (self : PlatformProductInfo) :
    Run PlatformProductInfo :=
  match value with
  | .ok v => Run.ret (store self v)
  | .error e => Run.throw self e

/-- The expression `info[key].asString()`. -/
def getString (lib : Folly) (info : dynamic) (key : String) : Except Exn String :=
  match info.index key with
  | .ok v => v.asString lib
  | .error e => .error e

/-- The expression `info[key].asInt()`. -/
def getInt (lib : Folly) (info : dynamic) (key : String) : Except Exn Int :=
  match info.index key with
  | .ok v => v.asInt lib
  | .error e => .error e

/-- The `try`/`catch` that opens `parse`; `json` is what `parseJson(data)`
yields, a value or the exception it throws. The handler catches every
exception of the `try` block and evaluates `parseJson(data)` again. -/
def selectInfo (json : Except Exn dynamic) : Except Exn dynamic :=
  match json with
  | .error e => .error e
  | .ok doc =>
    match doc.at_ kInfo with
    | .ok info => .ok info
    | .error _ => .ok doc

/-- The expression `MacAddress::fromHBO(macBase).toString()` of `parse`, with
`macBase = MacAddress(info[kExtMacBase].asString()).u64HBO() + 1`. -/
def macRangeStartOf (lib : Folly) (info : dynamic) : Except Exn String :=
  match getString lib info kExtMacBase with
  | .error e => .error e
  | .ok text =>
    match lib.macParse text with
    | .error e => .error e
    | .ok mac =>
      let macBase := (mac.u64HBO + 1) % 2 ^ 64
      .ok (lib.macToString (MacAddress.fromHBO macBase))

/-- The expression `info[kExtMacSize].asInt() - 1` of `parse`. -/
def macRangeSizeOf (lib : Folly) (info : dynamic) : Except Exn Int :=
  match getInt lib info kExtMacSize with
  | .error e => .error e
  | .ok n => .ok (wrapInt64 (n - 1))

/-- The member `parse`. `json` is what `parseJson(data)` yields; `setFBSerial`
is the member of that name, defined outside the sources at hand. -/
def PlatformProductInfo.parse (lib : Folly) (bits : IntFieldBits)
    (setFBSerial : PlatformProductInfo → Run PlatformProductInfo)
    (json : Except Exn dynamic) (self : PlatformProductInfo) : Run PlatformProductInfo :=
  match selectInfo json with
  | .error e => Run.throw self e
  | .ok info =>
    (assign (getString lib info kSysMfg)
      (fun s v => { s with productInfo_ := { s.productInfo_ with oem := v } }) self)
    |>.andThen (assign (getString lib info kProdName)
      fun s v => { s with productInfo_ := { s.productInfo_ with product := v } })
    |>.andThen (assign (getString lib info kSerialNum)
      fun s v => { s with productInfo_ := { s.productInfo_ with serial := v } })
    |>.andThen (assign (getString lib info kSysMfgDate)
      fun s v => { s with productInfo_ := { s.productInfo_ with mfgDate := v } })
    |>.andThen (assign (getString lib info kSysAmbPartNum)
      fun s v => { s with productInfo_ := { s.productInfo_ with systemPartNumber := v } })
    |>.andThen (assign (getString lib info kAmbAt)
      fun s v => { s with productInfo_ := { s.productInfo_ with assembledAt := v } })
    |>.andThen (assign (getString lib info kPcbMfg)
      fun s v => { s with productInfo_ := { s.productInfo_ with pcbManufacturer := v } })
    |>.andThen (assign (getString lib info kProdAssetTag)
      fun s v => { s with productInfo_ := { s.productInfo_ with assetTag := v } })
    |>.andThen (assign (getString lib info kProdPartNum)
      fun s v => { s with productInfo_ := { s.productInfo_ with partNumber := v } })
    |>.andThen (assign (getString lib info kOdmPcbaPartNum)
      fun s v => { s with productInfo_ := { s.productInfo_ with odmPcbaPartNumber := v } })
    |>.andThen (assign (getString lib info kOdmPcbaSerialNum)
      fun s v => { s with productInfo_ := { s.productInfo_ with odmPcbaSerial := v } })
    |>.andThen (assign (getString lib info kFbPcbaPartNum)
      fun s v => { s with productInfo_ := { s.productInfo_ with fbPcbaPartNumber := v } })
    |>.andThen (assign (getString lib info kFbPcbPartNum)
      fun s v => { s with productInfo_ := { s.productInfo_ with fbPcbPartNumber := v } })
    |>.andThen (assign (getString lib info kFabricLocation)
      fun s v => { s with productInfo_ := { s.productInfo_ with fabricLocation := v } })
    |>.andThen setFBSerial
    |>.andThen (assign (getInt lib info kVersion)
      fun s v => { s with productInfo_ :=
        { s.productInfo_ with version := narrow bits.version v } })
    |>.andThen (assign (getInt lib info kSubVersion)
      fun s v => { s with productInfo_ :=
        { s.productInfo_ with subVersion := narrow bits.subVersion v } })
    |>.andThen (assign (getInt lib info kProductionState)
      fun s v => { s with productInfo_ :=
        { s.productInfo_ with productionState := narrow bits.productionState v } })
    |>.andThen (assign (getInt lib info kProdVersion)
      fun s v => { s with productInfo_ :=
        { s.productInfo_ with productVersion := narrow bits.productVersion v } })
    |>.andThen (assign (getString lib info kLocalMac)
      fun s v => { s with productInfo_ := { s.productInfo_ with bmcMac := v } })
    |>.andThen (assign (getString lib info kExtMacBase)
      fun s v => { s with productInfo_ := { s.productInfo_ with mgmtMac := v } })
    |>.andThen (assign (macRangeStartOf lib info)
      fun s v => { s with productInfo_ := { s.productInfo_ with macRangeStart := v } })
    |>.andThen (assign (macRangeSizeOf lib info)
      fun s v => { s with productInfo_ :=
        { s.productInfo_ with macRangeSize := narrow bits.macRangeSize v } })

/-! ### Conditions under which `parse` returns -/

/-- Whether the evaluation of an expression returns a value. -/
def returns {α : Type} : Except Exn α → Bool
  | .ok _ => true
  | .error _ => false

/-- The keys whose text `parse` stores before it handles the MAC range. -/
def textKeys : List String :=
  [kSysMfg, kProdName, kSerialNum, kSysMfgDate, kSysAmbPartNum, kAmbAt, kPcbMfg,
    kProdAssetTag, kProdPartNum, kOdmPcbaPartNum, kOdmPcbaSerialNum, kFbPcbaPartNum,
    kFbPcbPartNum, kFabricLocation, kLocalMac]

/-- The keys whose integer `parse` stores before it handles the MAC range. -/
def versionKeys : List String :=
  [kVersion, kSubVersion, kProductionState, kProdVersion]

/-! ### A sample record -/

/-- A fruid record with every key that `parse` reads, for a given base address
text and a given size of the MAC range. -/
def sampleMembers (base : String) (size : Int) : List (String × dynamic) :=
  [
    (kVersion, .int64 1),
    (kProdName, .string "Wedge100"),
    (kProdPartNum, .string "20-001234"),
    (kSysAmbPartNum, .string "01-001234"),
    (kFbPcbaPartNum, .string "132-000001-01"),
    (kFbPcbPartNum, .string "131-000001-01"),
    (kOdmPcbaPartNum, .string "NP3-ZZ7632-02"),
    (kOdmPcbaSerialNum, .string "AH12345678"),
    (kProductionState, .int64 4),
    (kProdVersion, .int64 2),
    (kSubVersion, .int64 0),
    (kSerialNum, .string "AI12345678"),
    (kProdAssetTag, .string "1234567"),
    (kSysMfg, .string "Maker"),
    (kSysMfgDate, .string "01-01-20"),
    (kPcbMfg, .string "Board"),
    (kAmbAt, .string "Plant"),
    (kLocalMac, .string "00:01:02:03:04:05"),
    (kExtMacBase, .string base),
    (kExtMacSize, .int64 size),
    (kFabricLocation, .string "") ]

/-- The sample record as a `dynamic`. -/
def sampleFruid (base : String) (size : Int) : dynamic :=
  .object (sampleMembers base size)

/-- A `PlatformProductInfo` with the given product name, else empty. -/
def withProduct (name : String) : PlatformProductInfo :=
  ⟨"", ⟨"", name, "", "", 0, "", "", "", "", "", "", "", "", "", "", "", 0, 0, 0, 0, "", ""⟩,
    PlatformMode.WEDGE⟩

/-- A `PlatformProductInfo` whose fields are all empty. -/
def emptyProductInfo : PlatformProductInfo :=
  ⟨"", ⟨"", "", "", "", 0, "", "", "", "", "", "", "", "", "", "", "", 0, 0, 0, 0, "", ""⟩,
    PlatformMode.WEDGE⟩

/-- Integer fields of 16 bits. -/
def sampleBits : IntFieldBits := ⟨16, 16, 16, 16, 16⟩

/-! ## Port statistics (`HwTestStatUtils.cpp`) -/

/-- Identifier of a port. -/
abbrev PortID := Nat

/-- The counters of `HwPortStats` that `getPortOutPkts` reads; they are 64-bit
signed integers. -/
structure HwPortStats where
  outUnicastPkts_ : Int
  outMulticastPkts_ : Int
  outBroadcastPkts_ : Int
  deriving DecidableEq, Repr

/-- The overload `getPortOutPkts(const HwPortStats&)`: the three counters are
added as 64-bit signed integers and the sum is returned as `uint64_t`. -/
def getPortOutPkts (portStats : HwPortStats) : Nat :=
  toUInt64 (wrapInt64 (wrapInt64 (portStats.outUnicastPkts_ + portStats.outMulticastPkts_) +
    portStats.outBroadcastPkts_))

/-- A `std::map<PortID, HwPortStats>`, as the sequence of its elements in
iteration order. -/
abbrev PortStatsMap := List (PortID × HwPortStats)

/-- The overload `getPortOutPkts(const std::map<PortID, HwPortStats>&)`:
`std::accumulate` from `0UL` with an `unsigned long` accumulator. -/
def getPortOutPktsMap (port2Stats : PortStatsMap) : Nat :=
  port2Stats.foldl
    (fun sum portIdAndStats => (sum + getPortOutPkts portIdAndStats.2) % 2 ^ 64) 0

/-- The exact number of packets sent out of one port: the sum of its three
counters as integers. -/
def outPktsExact (st : HwPortStats) : Int :=
  st.outUnicastPkts_ + st.outMulticastPkts_ + st.outBroadcastPkts_

/-! ## Forwarding entries and their programming

`FdbManagerTest.cpp` drives the switch state, the state update and the
hardware programming interface, none of which is among the sources at hand.
They are modelled here from their specification: sections 3, 4.2, 4.3, 4.4,
6 and 7. -/

/-- Identifier of a VLAN. -/
abbrev VlanID := Nat

/-- Modelled from the spec: the error taxonomy of section 7, which the sources
at hand do not define. `ConflictingEntry` stands for the violation of the
constraint of `addEntry`, for which the spec names no error. -/
inductive FdbError where
  | VlanNotFound
  | EntryNotFound
  | InvalidFormat
  | HandleResolutionFailed
  | HardwareProgrammingFailed
  | InconsistentState
  | ConflictingEntry
  deriving DecidableEq, Repr

/-- Modelled from the spec: `PortDescriptor` of section 3, a forwarding
destination of kind physical port, trunk or tunnel; the class is missing from
the sources at hand. -/
inductive PortDescriptor where
  | physical (port : PortID)
  | trunk (id : Nat)
  | tunnel (id : Nat)
  deriving DecidableEq, Repr

/-- The enumeration `cfg::AclLookupClass`, as the integer value of the
enumerator. -/
abbrev AclLookupClass := Int

/-- Modelled from the spec: the `ForwardingEntry` of section 3, the class
`MacEntry`, missing from the sources at hand. The VLAN of its key is that of
the table that holds it. -/
structure MacEntry where
  mac : MacAddress
  port : PortDescriptor
  classID : Option AclLookupClass
  deriving DecidableEq, Repr

/-- Modelled from the spec: the `ForwardingTable` of section 3, the class
`MacTable`, missing from the sources at hand. -/
abbrev MacTable := List MacEntry

/-- Modelled from the spec: the `Vlan` of section 3, missing from the sources
at hand. -/
structure Vlan where
  id : VlanID
  macTable : MacTable
  deriving DecidableEq, Repr

/-- Modelled from the spec: the `SwitchStateTree` of section 3, the class
`SwitchState`, missing from the sources at hand; of its maps, the one from
VLAN identifiers to VLANs. -/
structure SwitchState where
  vlans : List Vlan
  deriving DecidableEq, Repr

/-- Modelled from the spec: `clone` of section 4.2, missing from the sources at
hand: a tree identical to the receiver. -/
def SwitchState.clone (self : SwitchState) : SwitchState := self

/-- Modelled from the spec: `getVlan` of section 4.2, missing from the sources
at hand; `none` is "not found". -/
def SwitchState.getVlan (self : SwitchState) (id : VlanID) : Option Vlan :=
  self.vlans.find? (fun v => v.id == id)

/-- Modelled from the spec: `modifyVlan` of section 4.2 for the forwarding
table of a VLAN, the member `modify` of `MacTable`, missing from the sources at
hand: the tree in which the addressed VLAN holds `table`. -/
def SwitchState.modifyMacTable (self : SwitchState) (id : VlanID) (table : MacTable) :
    SwitchState :=
  ⟨self.vlans.map fun v => if v.id == id then { v with macTable := table } else v⟩

/-- The entry of a table for a MAC address. -/
def MacTable.getEntry (table : MacTable) (mac : MacAddress) : Option MacEntry :=
  table.find? (fun e => e.mac == mac)

/-- Modelled from the spec: `addEntry` of section 4.3 on the table of one VLAN,
the member `addEntry` of `MacTable`, missing from the sources at hand. The key
must not be there with another destination. -/
def MacTable.addEntry (table : MacTable) (entry : MacEntry) : Except FdbError MacTable :=
  match table.getEntry entry.mac with
  | none => .ok (table ++ [entry])
  | some old =>
    if old.port = entry.port then
      .ok (table.map fun e => if e.mac == entry.mac then entry else e)
    else .error FdbError.ConflictingEntry

/-- The key `SaiFdbTraits::FdbEntry` of an entry in hardware: switch, VLAN as
the hardware knows it, MAC address. -/
structure FdbEntry where
  switchId : Nat
  bridgeVlanId : Nat
  mac : MacAddress
  deriving DecidableEq, Repr

/-- The attributes of an entry in hardware: `BridgePortId` and `Metadata`. -/
structure FdbAttributes where
  bridgePortId : Nat
  metadata : Nat
  deriving DecidableEq, Repr

/-- Modelled from the spec: a backend of the hardware programming interface of
section 6, missing from the sources at hand: the entries it holds and the keys
it is able to program. -/
structure Hardware where
  fdb : List (FdbEntry × FdbAttributes)
  accepts : FdbEntry → Bool

/-- Modelled from the spec: `createOrUpdate(key, destinationHandle, tag)` of
section 6, missing from the sources at hand. -/
def Hardware.createOrUpdate (self : Hardware) (key : FdbEntry) (destinationHandle : Nat)
    (tag : Nat) : Except FdbError Hardware :=
  if self.accepts key then
    .ok { self with
      fdb := (key, ⟨destinationHandle, tag⟩) :: self.fdb.filter (fun kv => kv.1 != key) }
  else .error FdbError.HardwareProgrammingFailed

/-- Modelled from the spec: `delete(key)` of section 6, missing from the
sources at hand. -/
def Hardware.delete (self : Hardware) (key : FdbEntry) : Hardware :=
  { self with fdb := self.fdb.filter (fun kv => kv.1 != key) }

/-- Modelled from the spec: `getAttribute(key, attributeKind)` of section 6,
missing from the sources at hand, here for all attributes of the key at once;
`none` is `NotFound`. -/
def Hardware.getAttributes (self : Hardware) (key : FdbEntry) : Option FdbAttributes :=
  self.fdb.lookup key

/-- Modelled from the spec: the states of an entry in the hardware sync engine
of section 4.4. -/
inductive EntryState where
  | Pending
  | Programmed
  | Failed
  | Removed
  deriving DecidableEq, Repr

/-- A SAI object held by a manager: its adapter key is its hardware handle. -/
structure SaiObject where
  adapterKey : Nat
  deriving DecidableEq, Repr

/-- The handle of a port in the port manager, with its bridge port. -/
structure SaiPortHandle where
  bridgePort : SaiObject
  deriving DecidableEq, Repr

/-- A remote host of a test interface. -/
structure TestRemoteHost where
  id : Nat
  deriving DecidableEq, Repr

/-- The struct `TestInterface` of the test base, with the members the test
reads. -/
structure TestInterface where
  id : Nat
  remoteHosts : List TestRemoteHost
  deriving DecidableEq, Repr

/-- The fixture `FdbManagerTest`: the members of `ManagerTestBase` that the
test uses. `portHandles` and `vlanHandles` are the handles that the managers of
`saiManagerTable` hold, `hardware` is the backend behind `saiApiTable`,
`report` the state of the entries handled by the last update. -/
structure FdbManagerTest where
  programmedState : SwitchState
  hardware : Hardware
  switchId : Nat
  portHandles : List (PortID × SaiPortHandle)
  vlanHandles : List (VlanID × Nat)
  report : List (VlanID × MacAddress × EntryState)
  intf0 : TestInterface

/-- The member `getPortHandle` of the port manager; `none` is a null pointer. -/
def FdbManagerTest.getPortHandle (self : FdbManagerTest) (port : PortID) :
    Option SaiPortHandle :=
  self.portHandles.lookup port

/-- Modelled from the spec: resolution of a `PortDescriptor` to a bridge port
handle, section 4.4, missing from the sources at hand; `none` when the
destination has no hardware handle. -/
def FdbManagerTest.resolve (self : FdbManagerTest) (port : PortDescriptor) : Option Nat :=
  match port with
  | .physical p => (self.getPortHandle p).map fun h => h.bridgePort.adapterKey
  | .trunk _ => none
  | .tunnel _ => none

/-- Conversion of an integer to `sai_uint32_t`. -/
def toUInt32 (x : Int) : Nat := (x % 2 ^ 32).toNat

/-- Conversion of an integer to a 32-bit signed integer, the underlying type
of an enumeration. -/
def toInt32 (x : Int) : Int := (x + 2 ^ 31) % 2 ^ 32 - 2 ^ 31

/-- The metadata programmed for a classification tag: 0 for none. -/
def metadataOf (classID : Option AclLookupClass) : Nat :=
  match classID with
  | some c => toUInt32 c
  | none => 0

/-- What the sync engine carries through a batch: the backend and the report. -/
structure SyncState where
  hardware : Hardware
  report : List (VlanID × MacAddress × EntryState)

/-- Modelled from the spec: the programming of one added or modified entry,
section 4.4, missing from the sources at hand: resolve the handles, then call
the backend. An entry whose handles cannot be resolved stays `Pending`, one
that the backend rejects is `Failed`. -/
def FdbManagerTest.programEntry (self : FdbManagerTest) (vlan : VlanID) (entry : MacEntry)
    (st : SyncState) : SyncState :=
  match self.vlanHandles.lookup vlan, self.resolve entry.port with
  | some bridgeVlan, some bridgePort =>
    match st.hardware.createOrUpdate ⟨self.switchId, bridgeVlan, entry.mac⟩ bridgePort
        (metadataOf entry.classID) with
    | .ok hw => ⟨hw, (vlan, entry.mac, EntryState.Programmed) :: st.report⟩
    | .error _ => ⟨st.hardware, (vlan, entry.mac, EntryState.Failed) :: st.report⟩
  | _, _ => ⟨st.hardware, (vlan, entry.mac, EntryState.Pending) :: st.report⟩

/-- Modelled from the spec: the removal of one entry, section 4.4, missing from
the sources at hand. -/
def FdbManagerTest.removeEntry (self : FdbManagerTest) (vlan : VlanID) (entry : MacEntry)
    (st : SyncState) : SyncState :=
  match self.vlanHandles.lookup vlan with
  | some bridgeVlan =>
    ⟨st.hardware.delete ⟨self.switchId, bridgeVlan, entry.mac⟩,
      (vlan, entry.mac, EntryState.Removed) :: st.report⟩
  | none => st

/-- Modelled from the spec: the change-set of section 4.3 between two versions
of the table of one VLAN, missing from the sources at hand. -/
structure Delta where
  added : List MacEntry
  modified : List MacEntry
  removed : List MacEntry
  deriving DecidableEq, Repr

/-- Modelled from the spec: `diff` of section 4.3 on the tables of one VLAN,
missing from the sources at hand: key-wise comparison. -/
def diff (oldTable newTable : MacTable) : Delta where
  added := newTable.filter fun e => (oldTable.getEntry e.mac).isNone
  modified := newTable.filter fun e =>
    match oldTable.getEntry e.mac with
    | some old => old != e
    | none => false
  removed := oldTable.filter fun e => (newTable.getEntry e.mac).isNone

/-- Modelled from the spec: the application of the delta of one VLAN, section
4.4, missing from the sources at hand. -/
def FdbManagerTest.syncVlan (self : FdbManagerTest) (st : SyncState) (vlan : Vlan) :
    SyncState :=
  let oldTable :=
    match self.programmedState.getVlan vlan.id with
    | some old => old.macTable
    | none => []
  let delta := diff oldTable vlan.macTable
  let st := delta.removed.foldl (fun st e => self.removeEntry vlan.id e st) st
  let st := delta.added.foldl (fun st e => self.programEntry vlan.id e st) st
  delta.modified.foldl (fun st e => self.programEntry vlan.id e st) st

/-- Modelled from the spec: `applyNewState` of section 6 with the apply
protocol of section 4.4, missing from the sources at hand: the delta of every
VLAN of the new tree is applied to the backend, and the new tree is published
whatever the outcome of the entries. -/
def FdbManagerTest.applyNewState (self : FdbManagerTest) (newState : SwitchState) :
    FdbManagerTest :=
  let st := newState.vlans.foldl self.syncVlan ⟨self.hardware, []⟩
  { self with programmedState := newState, hardware := st.hardware, report := st.report }

/-- What stops the embedded test helpers short of their end. -/
inductive TestError where
  | fdb (e : FdbError)
  | outOfBounds
  | nullPointer
  deriving DecidableEq, Repr

/-- The expression `intf0.remoteHosts[0].id`, defined when the interface has a
remote host. -/
def FdbManagerTest.remoteHost0 (self : FdbManagerTest) : Except TestError Nat :=
  match self.intf0.remoteHosts with
  | host :: _ => .ok host.id
  | [] => .error TestError.outOfBounds

/-- The member `makeMacEntry`. -/
def FdbManagerTest.makeMacEntry (self : FdbManagerTest) (mac : MacAddress)
    (classId : Option Nat) : Except TestError MacEntry :=
  let metadata : Option AclLookupClass := classId.map fun value => toInt32 value
  match self.remoteHost0 with
  | .ok port => .ok ⟨mac, PortDescriptor.physical port, metadata⟩
  | .error e => .error e

/-- The member `kMac`: the address `00:11:11:11:11:11`. -/
def kMac : MacAddress := MacAddress.fromHBO 0x001111111111

/-- The member `addMacEntry`. -/
def FdbManagerTest.addMacEntry (self : FdbManagerTest) (mac : MacAddress)
    (classId : Option Nat) : Except TestError FdbManagerTest :=
  match self.makeMacEntry mac classId with
  | .error e => .error e
  | .ok macEntry =>
    let newState := self.programmedState.clone
    match newState.getVlan self.intf0.id with
    | none => .error (TestError.fdb FdbError.VlanNotFound)
    | some vlan =>
      match vlan.macTable.addEntry macEntry with
      | .error e => .error (TestError.fdb e)
      | .ok newMacTable =>
        .ok (self.applyNewState (newState.modifyMacTable self.intf0.id newMacTable))

/-- What `checkFdbEntry` compares: the attributes read back from the hardware
and the values expected. -/
structure FdbCheck where
  bridgePortId : Option Nat
  expectedBridgePortId : Nat
  metadata : Option Nat
  expectedMetadata : Nat
  deriving DecidableEq, Repr

/-- The member `checkFdbEntry`, up to its two `EXPECT_EQ`. -/
def FdbManagerTest.checkFdbEntry (self : FdbManagerTest) (mac : MacAddress)
    (metadata : Nat) : Except TestError FdbCheck :=
  let vlanId : VlanID := 0
  let entry : FdbEntry := ⟨1, vlanId, mac⟩
  match self.remoteHost0 with
  | .error e => .error e
  | .ok port =>
    match self.getPortHandle port with
    | none => .error TestError.nullPointer
    | some portHandle =>
      let expectedBridgePortId := portHandle.bridgePort.adapterKey
      let attributes := self.hardware.getAttributes entry
      .ok ⟨attributes.map fun a => a.bridgePortId, expectedBridgePortId,
        attributes.map fun a => a.metadata, metadata⟩

/-- Whether both expectations of `checkFdbEntry` hold. -/
def FdbCheck.passes (c : FdbCheck) : Bool :=
  c.bridgePortId == some c.expectedBridgePortId && c.metadata == some c.expectedMetadata

/-- A fixture as `SetUp` leaves it: one port with its bridge port, the VLAN of
`intf0` with an empty table, a backend without entries. -/
def sampleFixture : FdbManagerTest where
  programmedState := ⟨[⟨0, []⟩, ⟨1, []⟩]⟩
  hardware := ⟨[], fun _ => true⟩
  switchId := 1
  portHandles := [(10, ⟨⟨100⟩⟩), (11, ⟨⟨101⟩⟩)]
  vlanHandles := [(0, 7), (1, 0)]
  report := []
  intf0 := ⟨1, [⟨11⟩]⟩

/-! # Properties -/

/-! ## Facts about `find` -/

theorem findFrom_ge (pat : List Char) :
    ∀ (s : List Char) (pos r : Nat), findFrom pat s pos = some r → pos ≤ r := by
  intro s
  induction s with
  | nil =>
    intro pos r h
    simp only [findFrom] at h
    split at h
    · cases h; exact Nat.le_refl _
    · cases h
  | cons c cs ih =>
    intro pos r h
    simp only [findFrom] at h
    split at h
    · cases h; exact Nat.le_refl _
    · exact Nat.le_of_succ_le (ih _ _ h)

/-- The test `s.find(pat) == 0` of the source says that `s` begins with `pat`. -/
theorem find_eq_zero (s pat : String) : (find s pat == some 0) = startsWith s pat := by
  unfold find startsWith
  cases hs : s.data with
  | nil =>
    cases hp : pat.data with
    | nil => simp [findFrom]
    | cons a as => simp [findFrom, List.isPrefixOf]
  | cons c cs =>
    simp only [findFrom]
    split
    · rename_i h; simp [h]
    · rename_i h
      have hne : findFrom pat.data cs (0 + 1) ≠ some 0 := by
        intro h0
        have := findFrom_ge _ _ _ _ h0
        omega
      simp [h, hne]


theorem startsWith_append (name p : String) :
    startsWith name p = true ↔ ∃ t : List Char, name.data = p.data ++ t := by
  unfold startsWith
  rw [List.isPrefixOf_iff_prefix]
  constructor
  · rintro ⟨t, ht⟩; exact ⟨t, ht.symm⟩
  · rintro ⟨t, ht⟩; exact ⟨t, ht.symm⟩

theorem initMode_empty_eq (self : PlatformProductInfo) :
    self.initMode "" =
      match firstMatch self.getProductName modelTable with
      | some m => Run.ret { self with mode_ := m }
      | none => Run.throw self
          (Exn.runtime_error ("invalid model name " ++ self.getProductName)) := by
  unfold PlatformProductInfo.initMode
  rw [if_pos (by rfl)]
  simp only [find_eq_zero, modelTable, firstMatch,
    List.any_cons, List.any_nil, Bool.or_false, Bool.or_assoc]
  generalize self.getProductName = n
  by_cases h1 : (startsWith n "Wedge100" || startsWith n "WEDGE100") = true
  · rw [if_pos h1, if_pos h1]
  rw [if_neg h1, if_neg h1]
  by_cases h2 : (startsWith n "Wedge400c" || startsWith n "WEDGE400C") = true
  · rw [if_pos h2, if_pos h2]
  rw [if_neg h2, if_neg h2]
  by_cases h3 : (startsWith n "Wedge400" || startsWith n "WEDGE400") = true
  · rw [if_pos h3, if_pos h3]
  rw [if_neg h3, if_neg h3]
  by_cases h4 : (startsWith n "Wedge" || startsWith n "WEDGE") = true
  · rw [if_pos h4, if_pos h4]
  rw [if_neg h4, if_neg h4]
  by_cases h5 : (startsWith n "SCM-LC" || startsWith n "LC") = true
  · rw [if_pos h5, if_pos h5]
  rw [if_neg h5, if_neg h5]
  by_cases h6 : (startsWith n "SCM-FC" || (startsWith n "SCM-FAB" || startsWith n "FAB")) = true
  · rw [if_pos h6, if_pos h6]
  rw [if_neg h6, if_neg h6]
  by_cases h7 : startsWith n "MINIPACK" = true
  · rw [if_pos h7, if_pos h7]
  rw [if_neg h7, if_neg h7]
  by_cases h8 : (startsWith n "DCS-7368" || startsWith n "YAMP") = true
  · rw [if_pos h8, if_pos h8]
  rw [if_neg h8, if_neg h8]
  by_cases h9 : startsWith n "fake_wedge40" = true
  · rw [if_pos h9, if_pos h9]
  rw [if_neg h9, if_neg h9]
  by_cases h10 : startsWith n "fake_wedge" = true
  · rw [if_pos h10, if_pos h10]
  rw [if_neg h10, if_neg h10]

theorem wedge400c_not_wedge100 (n : String) (h : startsWith n "Wedge400c" = true) :
    startsWith n "Wedge100" = false ∧ startsWith n "WEDGE100" = false := by
  obtain ⟨t, ht⟩ := (startsWith_append n "Wedge400c").1 h
  have e1 : ("Wedge400c" : String).data = ['W', 'e', 'd', 'g', 'e', '4', '0', '0', 'c'] := rfl
  have e2 : ("Wedge100" : String).data = ['W', 'e', 'd', 'g', 'e', '1', '0', '0'] := rfl
  have e3 : ("WEDGE100" : String).data = ['W', 'E', 'D', 'G', 'E', '1', '0', '0'] := rfl
  unfold startsWith
  rw [ht, e1, e2, e3]
  constructor <;> simp [List.isPrefixOf]

theorem firstMatch_eq_none (n : String) (rows : List (List String × PlatformMode)) :
    firstMatch n rows = none ↔
      ∀ p ∈ (rows.map Prod.fst).flatten, startsWith n p = false := by
  induction rows with
  | nil => simp [firstMatch]
  | cons r rows ih =>
    obtain ⟨ps, m⟩ := r
    simp only [firstMatch, List.map_cons, List.flatten_cons, List.mem_append]
    by_cases h : ps.any (startsWith n) = true
    · rw [if_pos h]
      obtain ⟨p, hp, hpn⟩ := List.any_eq_true.1 h
      constructor
      · intro hc; cases hc
      · intro hall
        have := hall p (Or.inl hp)
        rw [hpn] at this
        cases this
    · rw [if_neg h, ih]
      constructor
      · intro hall p hp
        rcases hp with hp | hp
        · cases hq : startsWith n p with
          | false => rfl
          | true => exact absurd (List.any_eq_true.2 ⟨p, hp, hq⟩) h
        · exact hall p hp
      · intro hall p hp
        exact hall p (Or.inr hp)

theorem isEmpty_eq_false (flag : String) (h : flag ≠ "") : flag.isEmpty = false := by
  cases hf : flag.isEmpty with
  | false => rfl
  | true => exact absurd ((String.isEmpty_iff flag).1 hf) h

theorem initMode_flag_eq (flag : String) (self : PlatformProductInfo) (h : flag ≠ "") :
    self.initMode flag =
      match acceptedModes.lookup flag with
      | some m => Run.ret { self with mode_ := m }
      | none => Run.throw self (Exn.runtime_error ("invalid mode " ++ flag)) := by
  unfold PlatformProductInfo.initMode
  rw [isEmpty_eq_false flag h]
  simp only [acceptedModes, List.lookup, Bool.false_eq_true, if_false]
  generalize (flag == "wedge") = b1
  generalize (flag == "wedge100") = b2
  generalize (flag == "galaxy_lc") = b3
  generalize (flag == "galaxy_fc") = b4
  generalize (flag == "minipack") = b5
  generalize (flag == "yamp") = b6
  generalize (flag == "fake_wedge40") = b7
  generalize (flag == "wedge400") = b8
  cases b1
  swap
  · rfl
  cases b2
  swap
  · rfl
  cases b3
  swap
  · rfl
  cases b4
  swap
  · rfl
  cases b5
  swap
  · rfl
  cases b6
  swap
  · rfl
  cases b7
  swap
  · rfl
  cases b8 <;> rfl

theorem firstMatch_eq_some (n : String) (rows : List (List String × PlatformMode)) :
    (∃ m, firstMatch n rows = some m) ↔
      ∃ p ∈ (rows.map Prod.fst).flatten, startsWith n p = true := by
  constructor
  · rintro ⟨m, hm⟩
    by_contra hne
    have hall : ∀ p ∈ (rows.map Prod.fst).flatten, startsWith n p = false := by
      intro p hp
      cases hq : startsWith n p with
      | false => rfl
      | true => exact absurd ⟨p, hp, hq⟩ hne
    rw [(firstMatch_eq_none n rows).2 hall] at hm
    cases hm
  · rintro ⟨p, hp, hq⟩
    cases hfm : firstMatch n rows with
    | some m => exact ⟨m, rfl⟩
    | none =>
      have := (firstMatch_eq_none n rows).1 hfm p hp
      rw [hq] at this
      cases this

theorem lookup_eq_none_mem {β : Type} (k : String) (l : List (String × β)) :
    l.lookup k = none ↔ k ∉ l.map Prod.fst := by
  induction l with
  | nil => simp
  | cons a l ih =>
    obtain ⟨x, y⟩ := a
    by_cases hk : k = x
    · subst hk
      simp
    · have hb : (k == x) = false := by simpa using hk
      simp [List.lookup_cons, hb, ih, hk]

/-! ## `initMode` -/

/-- C3: the flag values "lc" and "fc", which the help text of the flag `mode`
documents, make `initMode` throw `invalid mode lc` and `invalid mode fc` and
leave the object as it was, whatever the product name; of the three documented
values only "wedge" is accepted, and it selects `WEDGE`. -/
theorem initMode_documented_flag_values (self : PlatformProductInfo) :
    self.initMode "lc" = Run.throw self (Exn.runtime_error "invalid mode lc") ∧
    self.initMode "fc" = Run.throw self (Exn.runtime_error "invalid mode fc") ∧
    self.initMode "wedge" = Run.ret { self with mode_ := PlatformMode.WEDGE } := by
  refine ⟨?_, ?_, ?_⟩
  · rw [initMode_flag_eq "lc" self (by decide)]; rfl
  · rw [initMode_flag_eq "fc" self (by decide)]; rfl
  · rw [initMode_flag_eq "wedge" self (by decide)]; rfl

/-- C5: with the mode flag empty, `initMode` sets the mode of the first row of
the model-name table one of whose spellings begins the product name; hence a
name beginning with `Wedge400c` gives `WEDGE400C` (so neither `WEDGE400` nor
`WEDGE`), and the spellings `Wedge100` and `WEDGE100` both give `WEDGE100`. -/
theorem initMode_first_matching_spelling (self : PlatformProductInfo) :
    (∀ m, firstMatch self.getProductName modelTable = some m →
      self.initMode "" = Run.ret { self with mode_ := m }) ∧
    (startsWith self.getProductName "Wedge400c" = true →
      self.initMode "" = Run.ret { self with mode_ := PlatformMode.WEDGE400C } ∧
      (self.initMode "").state.getMode ≠ PlatformMode.WEDGE400 ∧
      (self.initMode "").state.getMode ≠ PlatformMode.WEDGE) ∧
    (startsWith self.getProductName "Wedge100" = true →
      self.initMode "" = Run.ret { self with mode_ := PlatformMode.WEDGE100 }) ∧
    (startsWith self.getProductName "WEDGE100" = true →
      self.initMode "" = Run.ret { self with mode_ := PlatformMode.WEDGE100 }) := by
  refine ⟨?_, ?_, ?_, ?_⟩
  · intro m hm
    rw [initMode_empty_eq, hm]
  · intro h
    obtain ⟨h1, h2⟩ := wedge400c_not_wedge100 _ h
    have hm : firstMatch self.getProductName modelTable = some PlatformMode.WEDGE400C := by
      simp [firstMatch, modelTable, h, h1, h2]
    rw [initMode_empty_eq, hm]
    simp [Run.ret, PlatformProductInfo.getMode]
  · intro h
    have hm : firstMatch self.getProductName modelTable = some PlatformMode.WEDGE100 := by
      simp [firstMatch, modelTable, h]
    rw [initMode_empty_eq, hm]
  · intro h
    have hm : firstMatch self.getProductName modelTable = some PlatformMode.WEDGE100 := by
      simp [firstMatch, modelTable, h]
    rw [initMode_empty_eq, hm]

/-- C6: with the mode flag empty, `initMode` throws `invalid model name <name>`
exactly when the product name begins with none of the recognised spellings and
returns normally otherwise; with the flag set, it throws `invalid mode <flag>`
exactly when the flag is none of the accepted mode strings and returns
normally otherwise; and when it throws, the object, and so the stored mode, is
as before the call. -/
theorem initMode_throws_iff (flag : String) (self : PlatformProductInfo) :
    (flag = "" →
      ((self.initMode flag).thrown =
          some (Exn.runtime_error ("invalid model name " ++ self.getProductName)) ↔
        ∀ p ∈ recognisedSpellings, startsWith self.getProductName p = false) ∧
      ((self.initMode flag).thrown = none ↔
        ∃ p ∈ recognisedSpellings, startsWith self.getProductName p = true)) ∧
    (flag ≠ "" →
      ((self.initMode flag).thrown = some (Exn.runtime_error ("invalid mode " ++ flag)) ↔
        flag ∉ acceptedModes.map Prod.fst) ∧
      ((self.initMode flag).thrown = none ↔ flag ∈ acceptedModes.map Prod.fst)) ∧
    ((self.initMode flag).thrown ≠ none →
      (self.initMode flag).state = self ∧
      (self.initMode flag).state.getMode = self.getMode) := by
  have hunch : (self.initMode flag).thrown ≠ none → (self.initMode flag).state = self := by
    by_cases hf : flag = ""
    · subst hf
      rw [initMode_empty_eq]
      cases firstMatch self.getProductName modelTable with
      | none => intro _; rfl
      | some m => intro h; exact absurd rfl h
    · rw [initMode_flag_eq flag self hf]
      cases acceptedModes.lookup flag with
      | none => intro _; rfl
      | some m => intro h; exact absurd rfl h
  refine ⟨?_, ?_, fun h => ⟨hunch h, by rw [hunch h]⟩⟩
  · intro hf
    subst hf
    rw [initMode_empty_eq]
    unfold recognisedSpellings
    cases hfm : firstMatch self.getProductName modelTable with
    | none =>
      have hall := (firstMatch_eq_none _ _).1 hfm
      refine ⟨⟨fun _ => hall, fun _ => rfl⟩, ⟨fun h => ?_, fun h => ?_⟩⟩
      · cases h
      · obtain ⟨p, hp, hq⟩ := h
        rw [hall p hp] at hq
        cases hq
    | some m =>
      have hex := (firstMatch_eq_some _ _).1 ⟨m, hfm⟩
      refine ⟨⟨fun h => ?_, fun h => ?_⟩, ⟨fun _ => hex, fun _ => rfl⟩⟩
      · cases h
      · obtain ⟨p, hp, hq⟩ := hex
        rw [h p hp] at hq
        cases hq
  · intro hf
    rw [initMode_flag_eq flag self hf]
    cases hl : acceptedModes.lookup flag with
    | none =>
      have hn := (lookup_eq_none_mem _ _).1 hl
      exact ⟨⟨fun _ => hn, fun _ => rfl⟩, ⟨fun h => (by cases h), fun h => absurd h hn⟩⟩
    | some m =>
      have hn : ¬ flag ∉ acceptedModes.map Prod.fst := by
        intro hc
        rw [(lookup_eq_none_mem _ _).2 hc] at hl
        cases hl
      exact ⟨⟨fun h => (by cases h), fun h => absurd h hn⟩, ⟨fun _ => not_not.1 hn, fun _ => rfl⟩⟩

/-- C9: with the mode flag set, what `initMode` does is fixed by the flag: run
on any two objects (any two product names), it throws the same exception or
returns normally in both, and on normal return it has set the same mode. -/
theorem initMode_flag_decides (flag : String) (s₁ s₂ : PlatformProductInfo)
    (hflag : flag ≠ "") :
    (s₁.initMode flag).thrown = (s₂.initMode flag).thrown ∧
    ((s₁.initMode flag).thrown = none →
      (s₁.initMode flag).state.getMode = (s₂.initMode flag).state.getMode) := by
  rw [initMode_flag_eq flag s₁ hflag, initMode_flag_eq flag s₂ hflag]
  cases acceptedModes.lookup flag with
  | none => exact ⟨rfl, fun h => by cases h⟩
  | some m => exact ⟨rfl, fun _ => rfl⟩

/-! ## `getPortOutPkts` -/

theorem getPortOutPkts_eq (st : HwPortStats) :
    (getPortOutPkts st : Int) = outPktsExact st % 2 ^ 64 := by
  unfold getPortOutPkts toUInt64 wrapInt64 outPktsExact
  rw [Int.toNat_of_nonneg (Int.emod_nonneg _ (by norm_num))]
  norm_num
  omega

theorem foldl_outPkts (l : PortStatsMap) :
    ∀ acc : Nat,
      ((l.foldl (fun sum portIdAndStats =>
          (sum + getPortOutPkts portIdAndStats.2) % 2 ^ 64) acc : Nat) : Int) % 2 ^ 64 =
        ((acc : Int) + (l.map fun ps => outPktsExact ps.2).sum) % 2 ^ 64 := by
  induction l with
  | nil => intro acc; simp
  | cons a l ih =>
    intro acc
    rw [List.foldl_cons, ih, List.map_cons, List.sum_cons]
    push_cast
    rw [getPortOutPkts_eq]
    norm_num
    omega

theorem foldl_outPkts_lt (l : PortStatsMap) :
    ∀ acc : Nat, acc < 2 ^ 64 →
      l.foldl (fun sum portIdAndStats =>
          (sum + getPortOutPkts portIdAndStats.2) % 2 ^ 64) acc < 2 ^ 64 := by
  induction l with
  | nil => intro acc h; simpa using h
  | cons a l ih =>
    intro acc _
    rw [List.foldl_cons]
    exact ih _ (Nat.mod_lt _ (by norm_num))

theorem getPortOutPktsMap_eq (m : PortStatsMap) :
    (getPortOutPktsMap m : Int) = (m.map fun ps => outPktsExact ps.2).sum % 2 ^ 64 := by
  have h1 := foldl_outPkts m 0
  have h2 := foldl_outPkts_lt m 0 (by norm_num)
  unfold getPortOutPktsMap
  have h3 : ((List.foldl (fun sum portIdAndStats =>
      (sum + getPortOutPkts portIdAndStats.2) % 2 ^ 64) 0 m : Nat) : Int) < 2 ^ 64 := by
    exact_mod_cast h2
  rw [← Int.emod_eq_of_lt (Int.natCast_nonneg _) h3, h1]
  simp

/-- C8: `getPortOutPkts` of one port is the sum of its three counters modulo
`2 ^ 64`; `getPortOutPkts` of a map is the sum of these over its ports modulo
`2 ^ 64`, is 0 for the empty map, and is the same for any two orders of the
same ports. -/
theorem getPortOutPkts_sum (m m' : PortStatsMap) (st : HwPortStats) :
    (getPortOutPkts st : Int) =
      (st.outUnicastPkts_ + st.outMulticastPkts_ + st.outBroadcastPkts_) % 2 ^ 64 ∧
    (getPortOutPktsMap m : Int) =
      (m.map fun ps =>
        ps.2.outUnicastPkts_ + ps.2.outMulticastPkts_ + ps.2.outBroadcastPkts_).sum % 2 ^ 64 ∧
    getPortOutPktsMap [] = 0 ∧
    (m.Perm m' → getPortOutPktsMap m = getPortOutPktsMap m') := by
  refine ⟨getPortOutPkts_eq st, getPortOutPktsMap_eq m, rfl, fun hperm => ?_⟩
  have h : (getPortOutPktsMap m : Int) = (getPortOutPktsMap m' : Int) := by
    rw [getPortOutPktsMap_eq, getPortOutPktsMap_eq, (hperm.map _).sum_eq]
  exact_mod_cast h

/-! ## `parse` -/

theorem returns_ok {α : Type} (e : Except Exn α) (h : returns e = true) :
    ∃ v, e = .ok v := by
  cases e with
  | ok v => exact ⟨v, rfl⟩
  | error e => cases h

theorem andThen_of_returned {σ : Type} (r : Run σ) (next : σ → Run σ)
    (h : r.thrown = none) : r.andThen next = next r.state := by
  unfold Run.andThen
  rw [h]

theorem assign_ok {α : Type} (v : α)
    (store : PlatformProductInfo → α → PlatformProductInfo) (self : PlatformProductInfo) :
    assign (.ok v) store self = Run.ret (store self v) := rfl

theorem ret_thrown {σ : Type} (s : σ) : (Run.ret s).thrown = none := rfl

theorem ret_state {σ : Type} (s : σ) : (Run.ret s).state = s := rfl

theorem narrow_of_fits (bits : Nat) (x : Int) (hb : 1 ≤ bits)
    (hlo : -(2 ^ (bits - 1)) ≤ x) (hhi : x < 2 ^ (bits - 1)) : narrow bits x = x := by
  unfold narrow
  have h2 : (2 : Int) ^ bits = 2 * 2 ^ (bits - 1) := by
    rw [← pow_succ']
    congr 1
    omega
  rw [h2, Int.emod_eq_of_lt (by omega) (by omega)]
  omega

theorem wrapInt64_of_fits (x : Int) (hlo : -(2 ^ 63) ≤ x) (hhi : x < 2 ^ 63) :
    wrapInt64 x = x := by
  unfold wrapInt64
  rw [Int.emod_eq_of_lt (by omega) (by omega)]
  omega

/-- What `parse` leaves in the three MAC range fields when it runs to its end. -/
theorem parse_tail (lib : Folly) (bits : IntFieldBits)
    (setFBSerial : PlatformProductInfo → Run PlatformProductInfo)
    (json : Except Exn dynamic) (info : dynamic) (self : PlatformProductInfo)
    (text : String) (b : MacAddress) (n : Int)
    (hsel : selectInfo json = .ok info)
    (htext : ∀ k ∈ textKeys, returns (getString lib info k) = true)
    (hver : ∀ k ∈ versionKeys, returns (getInt lib info k) = true)
    (hser : ∀ s, (setFBSerial s).thrown = none)
    (hbase : getString lib info kExtMacBase = .ok text)
    (hmac : lib.macParse text = .ok b)
    (hsize : getInt lib info kExtMacSize = .ok n) :
    (self.parse lib bits setFBSerial json).thrown = none ∧
    (self.parse lib bits setFBSerial json).state.productInfo_.mgmtMac = text ∧
    (self.parse lib bits setFBSerial json).state.productInfo_.macRangeStart =
      lib.macToString (MacAddress.fromHBO ((b.u64HBO + 1) % 2 ^ 64)) ∧
    (self.parse lib bits setFBSerial json).state.productInfo_.macRangeSize =
      narrow bits.macRangeSize (wrapInt64 (n - 1)) := by
  obtain ⟨v1, h1⟩ := returns_ok _ (htext kSysMfg (by simp [textKeys]))
  obtain ⟨v2, h2⟩ := returns_ok _ (htext kProdName (by simp [textKeys]))
  obtain ⟨v3, h3⟩ := returns_ok _ (htext kSerialNum (by simp [textKeys]))
  obtain ⟨v4, h4⟩ := returns_ok _ (htext kSysMfgDate (by simp [textKeys]))
  obtain ⟨v5, h5⟩ := returns_ok _ (htext kSysAmbPartNum (by simp [textKeys]))
  obtain ⟨v6, h6⟩ := returns_ok _ (htext kAmbAt (by simp [textKeys]))
  obtain ⟨v7, h7⟩ := returns_ok _ (htext kPcbMfg (by simp [textKeys]))
  obtain ⟨v8, h8⟩ := returns_ok _ (htext kProdAssetTag (by simp [textKeys]))
  obtain ⟨v9, h9⟩ := returns_ok _ (htext kProdPartNum (by simp [textKeys]))
  obtain ⟨v10, h10⟩ := returns_ok _ (htext kOdmPcbaPartNum (by simp [textKeys]))
  obtain ⟨v11, h11⟩ := returns_ok _ (htext kOdmPcbaSerialNum (by simp [textKeys]))
  obtain ⟨v12, h12⟩ := returns_ok _ (htext kFbPcbaPartNum (by simp [textKeys]))
  obtain ⟨v13, h13⟩ := returns_ok _ (htext kFbPcbPartNum (by simp [textKeys]))
  obtain ⟨v14, h14⟩ := returns_ok _ (htext kFabricLocation (by simp [textKeys]))
  obtain ⟨v15, h15⟩ := returns_ok _ (htext kLocalMac (by simp [textKeys]))
  obtain ⟨i1, g1⟩ := returns_ok _ (hver kVersion (by simp [versionKeys]))
  obtain ⟨i2, g2⟩ := returns_ok _ (hver kSubVersion (by simp [versionKeys]))
  obtain ⟨i3, g3⟩ := returns_ok _ (hver kProductionState (by simp [versionKeys]))
  obtain ⟨i4, g4⟩ := returns_ok _ (hver kProdVersion (by simp [versionKeys]))
  have hstart : macRangeStartOf lib info =
      .ok (lib.macToString (MacAddress.fromHBO ((b.u64HBO + 1) % 2 ^ 64))) := by
    simp only [macRangeStartOf, hbase, hmac]
  have hsz : macRangeSizeOf lib info = .ok (wrapInt64 (n - 1)) := by
    simp only [macRangeSizeOf, hsize]
  simp only [PlatformProductInfo.parse, hsel, h1, h2, h3, h4, h5, h6, h7, h8, h9, h10, h11,
    h12, h13, h14, h15, g1, g2, g3, g4, hbase, hstart, hsz, assign_ok,
    andThen_of_returned _ _ (ret_thrown _), andThen_of_returned _ _ (hser _), ret_state,
    ret_thrown, and_self]

theorem fromHBO_succ (b : MacAddress) :
    (MacAddress.fromHBO ((b.u64HBO + 1) % 2 ^ 64)).u64HBO = (b.u64HBO + 1) % 2 ^ 48 := by
  have hb := b.isLt
  unfold MacAddress.fromHBO MacAddress.u64HBO
  simp only
  norm_num at hb ⊢

/-- C4, as amended: on a record from which every earlier field can be read,
whose base address text is `text` and parses to the address `b`, and whose
MAC range size is the integer `n`, `parse` returns, having set `mgmtMac` to
`text`, `macRangeStart` to the canonical text of the address whose value is
`b + 1` modulo `2 ^ 48`, and `macRangeSize` to `n - 1` reduced to the width of
that field, which is `n - 1` itself whenever `n - 1` fits the field. -/
theorem parse_mac_range (lib : Folly) (bits : IntFieldBits)
    (setFBSerial : PlatformProductInfo → Run PlatformProductInfo)
    (json : Except Exn dynamic) (info : dynamic) (self : PlatformProductInfo)
    (text : String) (b : MacAddress) (n : Int)
    (hsel : selectInfo json = .ok info)
    (htext : ∀ k ∈ textKeys, returns (getString lib info k) = true)
    (hver : ∀ k ∈ versionKeys, returns (getInt lib info k) = true)
    (hser : ∀ s, (setFBSerial s).thrown = none)
    (hbase : getString lib info kExtMacBase = .ok text)
    (hmac : lib.macParse text = .ok b)
    (hsize : getInt lib info kExtMacSize = .ok n) :
    (self.parse lib bits setFBSerial json).thrown = none ∧
    (self.parse lib bits setFBSerial json).state.productInfo_.mgmtMac = text ∧
    (∃ a : MacAddress, a.u64HBO = (b.u64HBO + 1) % 2 ^ 48 ∧
      (self.parse lib bits setFBSerial json).state.productInfo_.macRangeStart =
        lib.macToString a) ∧
    (self.parse lib bits setFBSerial json).state.productInfo_.macRangeSize =
      narrow bits.macRangeSize (wrapInt64 (n - 1)) ∧
    (1 ≤ bits.macRangeSize → bits.macRangeSize ≤ 64 →
      -(2 ^ (bits.macRangeSize - 1)) ≤ n - 1 → n - 1 < 2 ^ (bits.macRangeSize - 1) →
      (self.parse lib bits setFBSerial json).state.productInfo_.macRangeSize = n - 1) := by
  obtain ⟨h1, h2, h3, h4⟩ :=
    parse_tail lib bits setFBSerial json info self text b n hsel htext hver hser hbase hmac hsize
  refine ⟨h1, h2, ⟨_, fromHBO_succ b, h3⟩, h4, ?_⟩
  intro hb1 hb64 hlo hhi
  have hp : (2 : Int) ^ (bits.macRangeSize - 1) ≤ 2 ^ 63 :=
    pow_le_pow_right₀ (by norm_num) (by omega)
  rw [h4, wrapInt64_of_fits _ (by omega) (by omega), narrow_of_fits _ _ hb1 hlo hhi]

/-- C7: for an object `F` without a member `Information`, `parse` does on
`{"Information": F}` exactly what it does on `F`: it throws in both cases or in
neither and leaves the same product info; in particular, when it accepts `F`
it accepts the wrapped record and yields the same product info. -/
theorem parse_information_wrapper (lib : Folly) (bits : IntFieldBits)
    (setFBSerial : PlatformProductInfo → Run PlatformProductInfo)
    (members : List (String × dynamic)) (self : PlatformProductInfo)
    (hkey : members.lookup kInfo = none) :
    self.parse lib bits setFBSerial (.ok (.object [(kInfo, .object members)])) =
      self.parse lib bits setFBSerial (.ok (.object members)) ∧
    ((self.parse lib bits setFBSerial (.ok (.object members))).thrown = none →
      (self.parse lib bits setFBSerial (.ok (.object [(kInfo, .object members)]))).thrown = none ∧
      (self.parse lib bits setFBSerial
          (.ok (.object [(kInfo, .object members)]))).state.productInfo_ =
        (self.parse lib bits setFBSerial (.ok (.object members))).state.productInfo_) := by
  have hw : selectInfo (.ok (.object [(kInfo, .object members)])) = .ok (.object members) := by
    simp [selectInfo, dynamic.at_, List.lookup]
  have hp : selectInfo (.ok (.object members)) = .ok (.object members) := by
    simp [selectInfo, dynamic.at_, hkey]
  have heq : self.parse lib bits setFBSerial (.ok (.object [(kInfo, .object members)])) =
      self.parse lib bits setFBSerial (.ok (.object members)) := by
    unfold PlatformProductInfo.parse
    rw [hw, hp]
  refine ⟨heq, fun h => ?_⟩
  rw [heq]
  exact ⟨h, rfl⟩

/-- C4, as stated, fails: the record with base address `ff:ff:ff:ff:ff:ff` and
size 16 is accepted; its base address parses to the last address, of value
`2 ^ 48 - 1`; `parse` sets `macRangeStart` to `00:00:00:00:00:00`, and no
address has the value `2 ^ 48`, one more than the base. -/
theorem last_address_has_no_successor :
    (emptyProductInfo.parse folly sampleBits Run.ret
      (.ok (sampleFruid "ff:ff:ff:ff:ff:ff" 16))).thrown = none ∧
    folly.macParse "ff:ff:ff:ff:ff:ff" = .ok (MacAddress.fromHBO (2 ^ 48 - 1)) ∧
    (MacAddress.fromHBO (2 ^ 48 - 1)).u64HBO = 2 ^ 48 - 1 ∧
    (emptyProductInfo.parse folly sampleBits Run.ret
      (.ok (sampleFruid "ff:ff:ff:ff:ff:ff" 16))).state.productInfo_.macRangeStart =
        "00:00:00:00:00:00" ∧
    ¬ ∃ a : MacAddress, a.u64HBO = (MacAddress.fromHBO (2 ^ 48 - 1)).u64HBO + 1 ∧
      (emptyProductInfo.parse folly sampleBits Run.ret
        (.ok (sampleFruid "ff:ff:ff:ff:ff:ff" 16))).state.productInfo_.macRangeStart =
          folly.macToString a := by
  refine ⟨by decide, by rfl, by decide, by decide, ?_⟩
  rintro ⟨a, ha, _⟩
  have hlt := a.isLt
  have hv : (MacAddress.fromHBO (2 ^ 48 - 1)).u64HBO = 2 ^ 48 - 1 := by decide
  rw [hv] at ha
  unfold MacAddress.u64HBO at ha
  omega

/-! ## Programming of forwarding entries -/

theorem getEntry_of_mem (t : MacTable) (e : MacEntry)
    (hnd : (t.map fun x => x.mac).Nodup) (he : e ∈ t) : t.getEntry e.mac = some e := by
  induction t with
  | nil => cases he
  | cons a t ih =>
    rw [List.map_cons, List.nodup_cons] at hnd
    unfold MacTable.getEntry
    rw [List.find?_cons]
    by_cases hae : a.mac = e.mac
    · have hb : (a.mac == e.mac) = true := by simpa using hae
      rw [hb]
      rcases List.mem_cons.1 he with h | h
      · rw [h]
      · exfalso
        apply hnd.1
        rw [hae]
        exact List.mem_map.2 ⟨e, h, rfl⟩
    · have hb : (a.mac == e.mac) = false := by simpa using hae
      rw [hb]
      rcases List.mem_cons.1 he with h | h
      · exact absurd (by rw [h]) hae
      · exact ih hnd.2 h

theorem diff_self (t : MacTable) (hnd : (t.map fun x => x.mac).Nodup) :
    diff t t = ⟨[], [], []⟩ := by
  unfold diff
  have h1 : (t.filter fun e => (t.getEntry e.mac).isNone) = [] := by
    rw [List.filter_eq_nil_iff]
    intro e he
    rw [getEntry_of_mem t e hnd he]
    simp
  have h2 : (t.filter fun e =>
      match t.getEntry e.mac with
      | some old => old != e
      | none => false) = [] := by
    rw [List.filter_eq_nil_iff]
    intro e he
    rw [getEntry_of_mem t e hnd he]
    simp
  rw [h1, h2]

theorem getEntry_append_of_mem (t : MacTable) (e x : MacEntry)
    (hnd : (t.map fun x => x.mac).Nodup) (hx : x ∈ t) :
    MacTable.getEntry (t ++ [e]) x.mac = some x := by
  have h := getEntry_of_mem t x hnd hx
  unfold MacTable.getEntry at h ⊢
  rw [List.find?_append, h]
  rfl

theorem diff_append (t : MacTable) (e : MacEntry)
    (hnd : (t.map fun x => x.mac).Nodup) (hnew : t.getEntry e.mac = none) :
    diff t (t ++ [e]) = ⟨[e], [], []⟩ := by
  unfold diff
  have h1 : ((t ++ [e]).filter fun x => (t.getEntry x.mac).isNone) = [e] := by
    rw [List.filter_append]
    have : (t.filter fun x => (t.getEntry x.mac).isNone) = [] := by
      rw [List.filter_eq_nil_iff]
      intro x hx
      rw [getEntry_of_mem t x hnd hx]
      simp
    rw [this]
    simp [hnew]
  have h2 : ((t ++ [e]).filter fun x =>
      match t.getEntry x.mac with
      | some old => old != x
      | none => false) = [] := by
    rw [List.filter_eq_nil_iff]
    intro x hx
    rcases List.mem_append.1 hx with h | h
    · rw [getEntry_of_mem t x hnd h]
      simp
    · rw [List.mem_singleton.1 h, hnew]
      simp
  have h3 : (t.filter fun x => (MacTable.getEntry (t ++ [e]) x.mac).isNone) = [] := by
    rw [List.filter_eq_nil_iff]
    intro x hx
    rw [getEntry_append_of_mem t e x hnd hx]
    simp
  rw [h1, h2, h3]

theorem getVlan_of_mem (s : SwitchState) (v : Vlan)
    (hnd : (s.vlans.map fun x => x.id).Nodup) (hv : v ∈ s.vlans) :
    s.getVlan v.id = some v := by
  unfold SwitchState.getVlan
  generalize s.vlans = l at hnd hv
  induction l with
  | nil => cases hv
  | cons a l ih =>
    rw [List.map_cons, List.nodup_cons] at hnd
    rw [List.find?_cons]
    by_cases hav : a.id = v.id
    · have hb : (a.id == v.id) = true := by simpa using hav
      rw [hb]
      rcases List.mem_cons.1 hv with h | h
      · rw [h]
      · exfalso
        apply hnd.1
        rw [hav]
        exact List.mem_map.2 ⟨v, h, rfl⟩
    · have hb : (a.id == v.id) = false := by simpa using hav
      rw [hb]
      rcases List.mem_cons.1 hv with h | h
      · exact absurd (by rw [h]) hav
      · exact ih hnd.2 h

theorem syncVlan_unchanged (fx : FdbManagerTest) (st : SyncState) (v : Vlan)
    (hids : (fx.programmedState.vlans.map fun x => x.id).Nodup)
    (hkeys : ∀ v ∈ fx.programmedState.vlans, (v.macTable.map fun x => x.mac).Nodup)
    (hv : v ∈ fx.programmedState.vlans) : fx.syncVlan st v = st := by
  unfold FdbManagerTest.syncVlan
  simp only [getVlan_of_mem _ v hids hv, diff_self _ (hkeys v hv), List.foldl_nil]

theorem syncVlan_added (fx : FdbManagerTest) (st : SyncState) (v : Vlan) (e : MacEntry)
    (hids : (fx.programmedState.vlans.map fun x => x.id).Nodup)
    (hkeys : ∀ v ∈ fx.programmedState.vlans, (v.macTable.map fun x => x.mac).Nodup)
    (hv : v ∈ fx.programmedState.vlans) (hnew : v.macTable.getEntry e.mac = none) :
    fx.syncVlan st { v with macTable := v.macTable ++ [e] } = fx.programEntry v.id e st := by
  unfold FdbManagerTest.syncVlan
  simp only [getVlan_of_mem _ v hids hv, diff_append _ e (hkeys v hv) hnew, List.foldl_nil,
    List.foldl_cons]

theorem programEntry_attributes (fx : FdbManagerTest) (st : SyncState) (vlan : VlanID)
    (e : MacEntry) (bridgeVlan bridgePort : Nat)
    (hvh : fx.vlanHandles.lookup vlan = some bridgeVlan)
    (hres : fx.resolve e.port = some bridgePort)
    (hacc : st.hardware.accepts ⟨fx.switchId, bridgeVlan, e.mac⟩ = true) :
    (fx.programEntry vlan e st).hardware.getAttributes ⟨fx.switchId, bridgeVlan, e.mac⟩ =
      some ⟨bridgePort, metadataOf e.classID⟩ ∧
    (fx.programEntry vlan e st).hardware.accepts = st.hardware.accepts := by
  unfold FdbManagerTest.programEntry
  simp only [hvh, hres, Hardware.createOrUpdate, hacc, if_true, Hardware.getAttributes,
    List.lookup_cons_self, and_self]


theorem sync_fold (fx : FdbManagerTest) (target : VlanID) (e : MacEntry) (vlan : Vlan)
    (bridgeVlan bridgePort : Nat)
    (hids : (fx.programmedState.vlans.map fun x => x.id).Nodup)
    (hkeys : ∀ v ∈ fx.programmedState.vlans, (v.macTable.map fun x => x.mac).Nodup)
    (hget : fx.programmedState.getVlan target = some vlan)
    (hnew : vlan.macTable.getEntry e.mac = none)
    (hvh : fx.vlanHandles.lookup target = some bridgeVlan)
    (hres : fx.resolve e.port = some bridgePort) :
    ∀ (l : List Vlan), (∀ v ∈ l, v ∈ fx.programmedState.vlans) → ∀ st : SyncState,
      st.hardware.accepts ⟨fx.switchId, bridgeVlan, e.mac⟩ = true →
      ((l.map fun v =>
          if v.id == target then { v with macTable := vlan.macTable ++ [e] } else v).foldl
        fx.syncVlan st).hardware.accepts ⟨fx.switchId, bridgeVlan, e.mac⟩ = true ∧
      ((st.hardware.getAttributes ⟨fx.switchId, bridgeVlan, e.mac⟩ =
            some ⟨bridgePort, metadataOf e.classID⟩ ∨ ∃ v ∈ l, v.id = target) →
        ((l.map fun v =>
            if v.id == target then { v with macTable := vlan.macTable ++ [e] } else v).foldl
          fx.syncVlan st).hardware.getAttributes ⟨fx.switchId, bridgeVlan, e.mac⟩ =
            some ⟨bridgePort, metadataOf e.classID⟩) := by
  have hvmem : vlan ∈ fx.programmedState.vlans := List.mem_of_find?_eq_some hget
  intro l
  induction l with
  | nil =>
    intro _ st hacc
    refine ⟨hacc, fun h => ?_⟩
    rcases h with h | ⟨v, hv, _⟩
    · exact h
    · cases hv
  | cons a l ih =>
    intro hmem st hacc
    have ha : a ∈ fx.programmedState.vlans := hmem a (List.mem_cons_self _ _)
    have hl : ∀ v ∈ l, v ∈ fx.programmedState.vlans :=
      fun v hv => hmem v (List.mem_cons_of_mem _ hv)
    rw [List.map_cons, List.foldl_cons]
    by_cases hat : a.id = target
    · have hb : (a.id == target) = true := by simpa using hat
      have hav : a = vlan := by
        have h1 := getVlan_of_mem _ a hids ha
        rw [hat, hget] at h1
        exact (Option.some.inj h1).symm
      rw [if_pos hb, hav, syncVlan_added fx st vlan e hids hkeys hvmem hnew]
      have hvid : vlan.id = target := by rw [← hav]; exact hat
      rw [hvid]
      obtain ⟨hattr, hacc'⟩ := programEntry_attributes fx st target e bridgeVlan bridgePort
        hvh hres hacc
      have hacc2 : (fx.programEntry target e st).hardware.accepts
          ⟨fx.switchId, bridgeVlan, e.mac⟩ = true := by rw [hacc']; exact hacc
      obtain ⟨h1, h2⟩ := ih hl _ hacc2
      exact ⟨h1, fun _ => h2 (Or.inl hattr)⟩
    · have hb : (a.id == target) = false := by simpa using hat
      rw [hb]
      simp only [Bool.false_eq_true, if_false]
      rw [syncVlan_unchanged fx st a hids hkeys ha]
      obtain ⟨h1, h2⟩ := ih hl st hacc
      refine ⟨h1, fun h => h2 ?_⟩
      rcases h with h | ⟨v, hv, hvt⟩
      · exact Or.inl h
      · rcases List.mem_cons.1 hv with h | h
        · exact absurd (by rw [← h]; exact hvt) hat
        · exact Or.inr ⟨v, h, hvt⟩

/-- What `addMacEntry` leaves in the hardware for the entry it adds. -/
theorem addMacEntry_programs (fx : FdbManagerTest) (m : MacAddress) (classId : Option Nat)
    (host : TestRemoteHost) (rest : List TestRemoteHost) (handle : SaiPortHandle) (vlan : Vlan)
    (bridgeVlan : Nat)
    (hhost : fx.intf0.remoteHosts = host :: rest)
    (hport : fx.getPortHandle host.id = some handle)
    (hids : (fx.programmedState.vlans.map fun x => x.id).Nodup)
    (hkeys : ∀ v ∈ fx.programmedState.vlans, (v.macTable.map fun x => x.mac).Nodup)
    (hvlan : fx.programmedState.getVlan fx.intf0.id = some vlan)
    (hnew : vlan.macTable.getEntry m = none)
    (hvh : fx.vlanHandles.lookup fx.intf0.id = some bridgeVlan)
    (hacc : fx.hardware.accepts ⟨fx.switchId, bridgeVlan, m⟩ = true) :
    ∃ fx', fx.addMacEntry m classId = .ok fx' ∧
      fx'.hardware.getAttributes ⟨fx.switchId, bridgeVlan, m⟩ =
        some ⟨handle.bridgePort.adapterKey,
          metadataOf (classId.map fun value => toInt32 value)⟩ ∧
      fx'.portHandles = fx.portHandles ∧ fx'.intf0 = fx.intf0 := by
  have hres : fx.resolve (PortDescriptor.physical host.id) =
      some handle.bridgePort.adapterKey := by
    simp [FdbManagerTest.resolve, hport]
  have hfold := (sync_fold fx fx.intf0.id
    ⟨m, PortDescriptor.physical host.id, classId.map fun value => toInt32 value⟩ vlan bridgeVlan handle.bridgePort.adapterKey hids hkeys hvlan hnew hvh hres
    fx.programmedState.vlans (fun v hv => hv) ⟨fx.hardware, []⟩ hacc).2
    (Or.inr ⟨vlan, List.mem_of_find?_eq_some hvlan, by
      have := List.find?_some hvlan
      simpa using this⟩)
  refine ⟨fx.applyNewState (fx.programmedState.clone.modifyMacTable fx.intf0.id
    (vlan.macTable ++ [⟨m, PortDescriptor.physical host.id,
      classId.map fun value => toInt32 value⟩])), ?_, ?_, rfl, rfl⟩
  · simp only [FdbManagerTest.addMacEntry, FdbManagerTest.makeMacEntry,
      FdbManagerTest.remoteHost0, hhost, SwitchState.clone, hvlan, MacTable.addEntry, hnew]
  · exact hfold


theorem metadataOf_cast (classId : Option Nat) (hc : ∀ c, classId = some c → c < 2 ^ 32) :
    metadataOf (classId.map fun value => toInt32 value) = classId.getD 0 := by
  cases classId with
  | none => rfl
  | some c =>
    have h := hc c rfl
    simp only [Option.map_some', metadataOf, toUInt32, toInt32, Option.getD_some]
    norm_num at h ⊢
    omega

/-- C1: in a fixture whose interface `intf0` has a first remote host with a
port handle and a VLAN known to the hardware as VLAN 0 of switch 1, whose
programmed state has distinct VLAN identifiers and distinct keys in each table,
and whose backend is able to program the key, `addMacEntry` for an address not
yet in the table of that VLAN returns, and `checkFdbEntry` then reads back from
the hardware a `BridgePortId` equal to the adapter key of the bridge port of the
port handle. -/
theorem addMacEntry_bridge_port (fx : FdbManagerTest) (m : MacAddress) (classId : Option Nat)
    (metadata : Nat) (host : TestRemoteHost) (rest : List TestRemoteHost)
    (handle : SaiPortHandle) (vlan : Vlan)
    (hhost : fx.intf0.remoteHosts = host :: rest)
    (hport : fx.getPortHandle host.id = some handle)
    (hids : (fx.programmedState.vlans.map fun x => x.id).Nodup)
    (hkeys : ∀ v ∈ fx.programmedState.vlans, (v.macTable.map fun x => x.mac).Nodup)
    (hvlan : fx.programmedState.getVlan fx.intf0.id = some vlan)
    (hnew : vlan.macTable.getEntry m = none)
    (hsw : fx.switchId = 1)
    (hvh : fx.vlanHandles.lookup fx.intf0.id = some 0)
    (hacc : fx.hardware.accepts ⟨1, 0, m⟩ = true) :
    ∃ fx' chk, fx.addMacEntry m classId = .ok fx' ∧
      fx'.checkFdbEntry m metadata = .ok chk ∧
      chk.expectedBridgePortId = handle.bridgePort.adapterKey ∧
      chk.bridgePortId = some handle.bridgePort.adapterKey := by
  rw [← hsw] at hacc
  obtain ⟨fx', hadd, hattr, hph, hintf⟩ :=
    addMacEntry_programs fx m classId host rest handle vlan 0 hhost hport hids hkeys hvlan hnew
      hvh hacc
  rw [hsw] at hattr
  have hport' : fx'.getPortHandle host.id = some handle := by
    unfold FdbManagerTest.getPortHandle at hport ⊢
    rw [hph]
    exact hport
  have hchk : fx'.checkFdbEntry m metadata =
      .ok ⟨some handle.bridgePort.adapterKey, handle.bridgePort.adapterKey,
        some (metadataOf (classId.map fun value => toInt32 value)), metadata⟩ := by
    simp only [FdbManagerTest.checkFdbEntry, FdbManagerTest.remoteHost0, hintf, hhost, hport',
      hattr, Option.map_some']
  exact ⟨fx', _, hadd, hchk, rfl, rfl⟩

/-- C2: under the same conditions on the fixture, for a class id that fits
`sai_uint32_t`, `checkFdbEntry` after `addMacEntry` reads back from the hardware
a `Metadata` equal to the class id when one is given and to 0 when none is. -/
theorem addMacEntry_metadata (fx : FdbManagerTest) (m : MacAddress) (classId : Option Nat)
    (metadata : Nat) (host : TestRemoteHost) (rest : List TestRemoteHost)
    (handle : SaiPortHandle) (vlan : Vlan)
    (hclass : ∀ c, classId = some c → c < 2 ^ 32)
    (hhost : fx.intf0.remoteHosts = host :: rest)
    (hport : fx.getPortHandle host.id = some handle)
    (hids : (fx.programmedState.vlans.map fun x => x.id).Nodup)
    (hkeys : ∀ v ∈ fx.programmedState.vlans, (v.macTable.map fun x => x.mac).Nodup)
    (hvlan : fx.programmedState.getVlan fx.intf0.id = some vlan)
    (hnew : vlan.macTable.getEntry m = none)
    (hsw : fx.switchId = 1)
    (hvh : fx.vlanHandles.lookup fx.intf0.id = some 0)
    (hacc : fx.hardware.accepts ⟨1, 0, m⟩ = true) :
    ∃ fx' chk, fx.addMacEntry m classId = .ok fx' ∧
      fx'.checkFdbEntry m metadata = .ok chk ∧
      (∀ c, classId = some c → chk.metadata = some c) ∧
      (classId = none → chk.metadata = some 0) := by
  rw [← hsw] at hacc
  obtain ⟨fx', hadd, hattr, hph, hintf⟩ :=
    addMacEntry_programs fx m classId host rest handle vlan 0 hhost hport hids hkeys hvlan hnew
      hvh hacc
  rw [hsw, metadataOf_cast classId hclass] at hattr
  have hport' : fx'.getPortHandle host.id = some handle := by
    unfold FdbManagerTest.getPortHandle at hport ⊢
    rw [hph]
    exact hport
  have hchk : fx'.checkFdbEntry m metadata =
      .ok ⟨some handle.bridgePort.adapterKey, handle.bridgePort.adapterKey,
        some (classId.getD 0), metadata⟩ := by
    simp only [FdbManagerTest.checkFdbEntry, FdbManagerTest.remoteHost0, hintf, hhost, hport',
      hattr, Option.map_some']
  refine ⟨fx', _, hadd, hchk, ?_, ?_⟩
  · intro c hc
    rw [hc]
    rfl
  · intro hc
    rw [hc]
    rfl

/-! ## Instances -/

/-- An instance of C5: the product name `Wedge400c-DVT`. -/
theorem initMode_first_matching_spelling_witness :
    (withProduct "Wedge400c-DVT").initMode "" =
      Run.ret { withProduct "Wedge400c-DVT" with mode_ := PlatformMode.WEDGE400C } :=
  ((initMode_first_matching_spelling (withProduct "Wedge400c-DVT")).2.1 (by decide)).1

/-- An instance of C6: the flag `lc` on a `Wedge100`. -/
theorem initMode_throws_iff_witness :
    ((withProduct "Wedge100").initMode "lc").state = withProduct "Wedge100" :=
  ((initMode_throws_iff "lc" (withProduct "Wedge100")).2.2 (by decide)).1

/-- An instance of C9: the flag `yamp` on a `Wedge100` and on a `MINIPACK`. -/
theorem initMode_flag_decides_witness :
    ((withProduct "Wedge100").initMode "yamp").thrown =
      ((withProduct "MINIPACK").initMode "yamp").thrown ∧
    (((withProduct "Wedge100").initMode "yamp").thrown = none →
      ((withProduct "Wedge100").initMode "yamp").state.getMode =
        ((withProduct "MINIPACK").initMode "yamp").state.getMode) :=
  initMode_flag_decides "yamp" (withProduct "Wedge100") (withProduct "MINIPACK") (by decide)

/-- An instance of C8: two ports in either order, the first one with counters that
add up to `2 ^ 63`. -/
theorem getPortOutPkts_sum_witness :
    getPortOutPktsMap [(1, ⟨2 ^ 63 - 1, 1, 0⟩), (2, ⟨3, 4, 5⟩)] =
      getPortOutPktsMap [(2, ⟨3, 4, 5⟩), (1, ⟨2 ^ 63 - 1, 1, 0⟩)] :=
  (getPortOutPkts_sum [(1, ⟨2 ^ 63 - 1, 1, 0⟩), (2, ⟨3, 4, 5⟩)]
    [(2, ⟨3, 4, 5⟩), (1, ⟨2 ^ 63 - 1, 1, 0⟩)] ⟨0, 0, 0⟩).2.2.2 (List.Perm.swap _ _ _)

/-- An instance of C4 as amended: the sample record with base address
`00:11:22:33:44:ff` and size 16. -/
theorem parse_mac_range_witness :
    (emptyProductInfo.parse folly sampleBits Run.ret
      (.ok (sampleFruid "00:11:22:33:44:ff" 16))).thrown = none ∧
    (emptyProductInfo.parse folly sampleBits Run.ret
      (.ok (sampleFruid "00:11:22:33:44:ff" 16))).state.productInfo_.mgmtMac =
        "00:11:22:33:44:ff" ∧
    (emptyProductInfo.parse folly sampleBits Run.ret
      (.ok (sampleFruid "00:11:22:33:44:ff" 16))).state.productInfo_.macRangeSize = 16 - 1 :=
  have h := parse_mac_range folly sampleBits Run.ret (.ok (sampleFruid "00:11:22:33:44:ff" 16))
    (sampleFruid "00:11:22:33:44:ff" 16) emptyProductInfo "00:11:22:33:44:ff"
    (MacAddress.fromHBO 0x0011223344ff) 16 rfl (by decide) (by decide) (fun _ => rfl) rfl rfl rfl
  ⟨h.1, h.2.1, h.2.2.2.2 (by decide) (by decide) (by decide) (by decide)⟩

/-- An instance of C7: the sample record, bare and wrapped. -/
theorem parse_information_wrapper_witness :
    emptyProductInfo.parse folly sampleBits Run.ret
        (.ok (.object [(kInfo, .object (sampleMembers "00:11:22:33:44:ff" 16))])) =
      emptyProductInfo.parse folly sampleBits Run.ret
        (.ok (.object (sampleMembers "00:11:22:33:44:ff" 16))) :=
  (parse_information_wrapper folly sampleBits Run.ret (sampleMembers "00:11:22:33:44:ff" 16)
    emptyProductInfo rfl).1

/-- An instance of C1: the first test, `addFdbEntry`, on the sample fixture. -/
theorem addMacEntry_bridge_port_witness :
    ∃ fx' chk, sampleFixture.addMacEntry kMac none = .ok fx' ∧
      fx'.checkFdbEntry kMac 0 = .ok chk ∧
      chk.expectedBridgePortId = 101 ∧ chk.bridgePortId = some 101 :=
  addMacEntry_bridge_port sampleFixture kMac none 0 ⟨11⟩ [] ⟨⟨101⟩⟩ ⟨1, []⟩
    rfl rfl (by decide) (by decide) rfl rfl rfl rfl rfl

/-- An instance of C2: the second test, `addFdbEntryWithClassId`, on the sample
fixture. -/
theorem addMacEntry_metadata_witness :
    ∃ fx' chk, sampleFixture.addMacEntry kMac (some 42) = .ok fx' ∧
      fx'.checkFdbEntry kMac 42 = .ok chk ∧
      (∀ c, some 42 = some c → chk.metadata = some c) ∧
      ((some 42 : Option Nat) = none → chk.metadata = some 0) :=
  addMacEntry_metadata sampleFixture kMac (some 42) 42 ⟨11⟩ [] ⟨⟨101⟩⟩ ⟨1, []⟩
    (by intro c hc; cases hc; decide) rfl rfl (by decide) (by decide) rfl rfl rfl rfl rfl

end Fboss
